import Mathlib

/-!
Shallow embedding of the Nexus voice-assistant core (planner normalization,
safety gate, confirmation interpreter, memory-write gate, override resolver,
close-target detection, and the sequential action-execution loop), together
with theorems settling the frozen claims about it.

Python strings are modelled as Lean `String`, Python dicts with string values
as association lists `List (String × String)`, Python `None`-able values as
`Option`, and the planner confidence float as `ℚ` (the threshold literals
0.65 and 0.60 are exactly representable, and the comparison direction at the
literals agrees with the double-precision comparison performed by the source).
-/

namespace Nexus

/-- Python whitespace test for `str.strip` (space, tab, newline, return,
vertical tab, form feed). -/
def isPySpace (c : Char) : Bool :=
  c == ' ' || c == '\t' || c == '\n' || c == '\r' || c == '\x0b' || c == '\x0c'

/-- Python `str.strip()`: drop whitespace from both ends. -/
def pyStrip (s : String) : String :=
  ⟨((s.data.dropWhile isPySpace).reverse.dropWhile isPySpace).reverse⟩

/-- ASCII lower-casing of one character (Python `str.lower` on ASCII). -/
def charLower (c : Char) : Char :=
  if 65 ≤ c.toNat && c.toNat ≤ 90 then Char.ofNat (c.toNat + 32) else c

/-- ASCII upper-casing of one character (Python `str.upper` on ASCII). -/
def charUpper (c : Char) : Char :=
  if 97 ≤ c.toNat && c.toNat ≤ 122 then Char.ofNat (c.toNat - 32) else c

/-- Python `str.lower()` (ASCII). -/
def pyLower (s : String) : String := ⟨s.data.map charLower⟩

/-- Python `str.upper()` (ASCII). -/
def pyUpper (s : String) : String := ⟨s.data.map charUpper⟩

/-- Length of a string in characters (Python `len`). -/
def pyLen (s : String) : Nat := s.data.length

/-- Python `s[:n]`. -/
def pyTake (s : String) (n : Nat) : String := ⟨s.data.take n⟩

/-- Python `sep.join(parts)`. -/
def joinSep (sep : String) : List String → String
  | [] => ""
  | [a] => a
  | a :: b :: rest => a ++ sep ++ joinSep sep (b :: rest)

/-- Boolean test that the first character list starts the second
(Python `str.startswith` / the prefix step of `in`). -/
def leadsB : List Char → List Char → Bool
  | [], _ => true
  | _ :: _, [] => false
  | a :: as, b :: bs => a == b && leadsB as bs

/-- Boolean substring occurrence on character lists (Python `needle in hay`). -/
def occursB (p : List Char) : List Char → Bool
  | [] => leadsB p []
  | c :: rest => leadsB p (c :: rest) || occursB p rest

/-- String-level substring occurrence (Python `needle in hay`). -/
def occursS (needle hay : String) : Bool :=
  occursB needle.data hay.data

/-- Index of the first occurrence of `p` (Python `str.find`, `none` for -1). -/
def findAt (p : List Char) : List Char → Option Nat
  | [] => if leadsB p [] then some 0 else none
  | c :: rest =>
    if leadsB p (c :: rest) then some 0
    else (findAt p rest).map (· + 1)

/-- String-level first-occurrence index (Python `str.find`). -/
def findS (needle hay : String) : Option Nat :=
  findAt needle.data hay.data

/-- The `Intent` enum of `core/intent.py`. -/
inductive Intent where
  | UNKNOWN
  | OPEN_APP
  | CLOSE_APP
  | CLOSE_ALL_APPS
  | SEARCH_WEB
  | CREATE_NOTE
  | OPEN_URL
  | CONTACTS
  | MAIL
  | REMINDERS
  | CALENDAR
  | MAPS
  | SEND_MESSAGE
  | TYPE_TEXT
  | READ_MESSAGES
  | READ_SCREEN
  | REMEMBER_THIS
  | RECALL_MEMORY
  | UPDATE_MEMORY
  | FORGET_THIS
  | LIST_MEMORIES
  | EXIT
  | STOP_NEXUS
  | RESTART_NEXUS
  deriving DecidableEq, Repr

/-- The `.value` string of each `Intent` member (names equal values). -/
def Intent.value : Intent → String
  | .UNKNOWN => "UNKNOWN"
  | .OPEN_APP => "OPEN_APP"
  | .CLOSE_APP => "CLOSE_APP"
  | .CLOSE_ALL_APPS => "CLOSE_ALL_APPS"
  | .SEARCH_WEB => "SEARCH_WEB"
  | .CREATE_NOTE => "CREATE_NOTE"
  | .OPEN_URL => "OPEN_URL"
  | .CONTACTS => "CONTACTS"
  | .MAIL => "MAIL"
  | .REMINDERS => "REMINDERS"
  | .CALENDAR => "CALENDAR"
  | .MAPS => "MAPS"
  | .SEND_MESSAGE => "SEND_MESSAGE"
  | .TYPE_TEXT => "TYPE_TEXT"
  | .READ_MESSAGES => "READ_MESSAGES"
  | .READ_SCREEN => "READ_SCREEN"
  | .REMEMBER_THIS => "REMEMBER_THIS"
  | .RECALL_MEMORY => "RECALL_MEMORY"
  | .UPDATE_MEMORY => "UPDATE_MEMORY"
  | .FORGET_THIS => "FORGET_THIS"
  | .LIST_MEMORIES => "LIST_MEMORIES"
  | .EXIT => "EXIT"
  | .STOP_NEXUS => "STOP_NEXUS"
  | .RESTART_NEXUS => "RESTART_NEXUS"

/-- String-valued argument dict of an action step. -/
abbrev Args := List (String × String)

/-- Python `args.get(key, "")` on the string-valued argument dict. -/
def getS (args : Args) (key : String) : String :=
  (args.lookup key).getD ""

/-- The `ActionStep` dataclass of `core/models.py` (string-valued args). -/
structure ActionStep where
  intent : Intent
  args : Args
  deriving DecidableEq, Repr

/-- The `Command` dataclass of `core/models.py`. -/
structure Command where
  raw : String
  plan : Option String
  steps : List ActionStep
  deriving DecidableEq, Repr

/-- The `SafetyDecision` dataclass of `core/safety.py`. -/
structure SafetyDecision where
  allowed : Bool
  reason : String
  requires_confirmation : Bool
  prompt : Option String
  deriving DecidableEq, Repr

/-- The `PROTECTED_APPS` set of `core/safety.py` (as a list). -/
def PROTECTED_APPS : List String :=
  ["System", "System Settings", "SystemUIServer", "WindowServer",
   "ControlCenter", "NotificationCenter", "Finder", "Dock",
   "loginwindow", "Terminal", "iTerm2", "Nexus"]

/-- The `check_step` safety gate of `core/safety.py`, translated branch by
branch; the final line is the "no policy" default of line 236. -/
def check_step (step : ActionStep) : SafetyDecision :=
  let intent := step.intent
  let args := step.args
  if intent = Intent.UNKNOWN then
    ⟨false, "unknown intent", false, some "I don't understand that command."⟩
  else if intent = Intent.OPEN_APP then
    let app := getS args "app_name"
    if app = "" ∨ pyStrip app = "" then
      ⟨false, "missing app_name", false, some "Which app should I open?"⟩
    else if pyStrip app = "System" then
      ⟨false, "protected", false, some "I can't open that system process."⟩
    else ⟨true, "ok", false, none⟩
  else if intent = Intent.CLOSE_APP then
    let app := getS args "app_name"
    if app = "" ∨ pyStrip app = "" then
      ⟨false, "missing app_name", false, some "Which app should I close?"⟩
    else if pyStrip app ∈ PROTECTED_APPS then
      ⟨false, "protected", false,
       some ("I can't close " ++ app ++ " - it's a protected system app.")⟩
    else ⟨true, "ok", true, some ("I'll close " ++ app ++ ". Confirm?")⟩
  else if intent = Intent.CLOSE_ALL_APPS then
    ⟨true, "ok", true,
     some "I'm about to close ALL running applications. Are you sure?"⟩
  else if intent = Intent.SEARCH_WEB then
    let query := getS args "query"
    if query = "" then
      ⟨false, "missing query", false, some "What should I search for?"⟩
    else ⟨true, "ok", false, none⟩
  else if intent = Intent.OPEN_URL then
    let url := getS args "url"
    if url = "" then
      ⟨false, "missing url", false, some "Which URL should I open?"⟩
    else ⟨true, "ok", false, none⟩
  else if intent = Intent.CREATE_NOTE then
    let content := getS args "content"
    if content = "" then
      ⟨false, "missing content", false, some "What should the note say?"⟩
    else ⟨true, "ok", false, none⟩
  else if intent = Intent.CONTACTS then
    ⟨true, "ok", false, none⟩
  else if intent = Intent.CALENDAR then
    let op := pyLower (getS args "operation")
    if op = "create" then
      let title := pyStrip (getS args "title")
      let date0 := getS args "date"
      let date := pyStrip (if date0 = "" then getS args "startDate" else date0)
      let time0 := getS args "time"
      let time := pyStrip (if time0 = "" then getS args "startTime" else time0)
      let parts :=
        (if title ≠ "" then ["\"" ++ title ++ "\""] else []) ++
        (if date ≠ "" then ["on " ++ date] else []) ++
        (if time ≠ "" then ["at " ++ time] else [])
      let desc := if parts = [] then "a new event" else joinSep " " parts
      ⟨true, "ok", true, some ("I'll create " ++ desc ++ ". Confirm?")⟩
    else ⟨true, "ok", false, none⟩
  else if intent = Intent.REMINDERS then
    let op := pyLower (getS args "operation")
    if op = "create" then
      let name0 := pyStrip (getS args "name")
      let name := if name0 = "" then "a reminder" else name0
      ⟨true, "ok", true, some ("I'll create a reminder (" ++ name ++ "). Confirm?")⟩
    else ⟨true, "ok", false, none⟩
  else if intent = Intent.MAPS then
    ⟨true, "ok", false, none⟩
  else if intent = Intent.MAIL then
    let op := pyLower (getS args "operation")
    if op = "send" then
      let toAddr := pyStrip (getS args "to")
      let subject := pyStrip (getS args "subject")
      ⟨true, "ok", true,
       some ("I'll send an email to " ++ toAddr ++ " (" ++ subject ++ "). Confirm?")⟩
    else ⟨true, "ok", false, none⟩
  else if intent = Intent.SEND_MESSAGE then
    let recipient := getS args "recipient"
    let message := getS args "message"
    if recipient = "" then
      ⟨false, "missing recipient", false, some "Who should I send the message to?"⟩
    else if message = "" then
      ⟨false, "missing message", false, some "What message should I send?"⟩
    else ⟨true, "ok", true,
          some ("I'll send '" ++ message ++ "' to " ++ recipient ++ ". Confirm?")⟩
  else if intent = Intent.TYPE_TEXT then
    let person := getS args "person"
    let message := getS args "message"
    if message = "" then
      ⟨false, "missing message", false, some "What should I type?"⟩
    else
      let target := if person = "" then "the active window" else person
      let preview := if pyLen message > 40 then pyTake message 40 ++ "..." else message
      ⟨true, "ok", true,
       some ("I'll type '" ++ preview ++ "' in " ++ target ++ ". Confirm?")⟩
  else if intent = Intent.READ_MESSAGES then
    let contact0 := getS args "contact"
    let contact := if contact0 = "" then getS args "recipient" else contact0
    if pyStrip contact = "" then
      ⟨false, "missing contact", false,
       some "Which contact should I read messages for?"⟩
    else ⟨true, "ok", false, none⟩
  else if intent = Intent.READ_SCREEN then
    ⟨true, "ok", false, none⟩
  else if intent = Intent.REMEMBER_THIS then
    ⟨true, "ok", false, none⟩
  else if intent = Intent.RECALL_MEMORY then
    ⟨true, "ok", false, none⟩
  else if intent = Intent.UPDATE_MEMORY then
    ⟨true, "ok", false, none⟩
  else if intent = Intent.FORGET_THIS then
    ⟨true, "ok", false, none⟩
  else if intent = Intent.LIST_MEMORIES then
    ⟨true, "ok", false, none⟩
  else if intent = Intent.EXIT then
    ⟨true, "ok", false, none⟩
  else if intent = Intent.STOP_NEXUS then
    ⟨true, "ok", true, some "I'm about to shut down completely. Are you sure?"⟩
  else if intent = Intent.RESTART_NEXUS then
    ⟨true, "ok", true, some "I'm about to restart myself. Confirm?"⟩
  else
    ⟨false, "no policy", false,
     some ("I don't have a safety policy for " ++ intent.value ++ ". Blocked for safety.")⟩

/-- The comma/"and" join rule of `check_command` for close targets
(`core/safety.py`, lines 265-272); only applied to non-empty target lists. -/
def joinClose : List String → String
  | [] => ""
  | [a] => "I'll close " ++ a ++ ". Confirm?"
  | [a, b] => "I'll close " ++ a ++ " and " ++ b ++ ". Confirm?"
  | l => "I'll close " ++ joinSep ", " l.dropLast ++ ", and " ++
         (l.getLast?.getD "") ++ ". Confirm?"

/-- The combined-prompt construction at the end of `check_command`
(`core/safety.py`, lines 264-281). -/
def buildCombined (req : Bool) (cts oth : List String) : SafetyDecision :=
  if cts ≠ [] then
    let close_msg := joinClose cts
    if oth ≠ [] then ⟨true, "ok", req, some (close_msg ++ " Also: " ++ joinSep " " oth)⟩
    else ⟨true, "ok", req, some close_msg⟩
  else
    match oth with
    | p :: _ => ⟨true, "ok", req, some p⟩
    | [] => ⟨true, "ok", req, none⟩

/-- The step loop of `check_command` (`core/safety.py`, lines 248-262) with its
three accumulators (`requires_confirmation`, `close_targets`,
`other_confirmations`) made explicit. -/
def check_command_loop : List ActionStep → Bool → List String → List String → SafetyDecision
  | [], req, cts, oth => buildCombined req cts oth
  | step :: rest, req, cts, oth =>
    let d := check_step step
    if d.allowed = false then d
    else if d.requires_confirmation then
      if step.intent = Intent.CLOSE_APP then
        let app := getS step.args "app_name"
        check_command_loop rest true (cts ++ if app ≠ "" then [app] else []) oth
      else
        match d.prompt with
        | some p =>
          if p ≠ "" then check_command_loop rest true cts (oth ++ [p])
          else check_command_loop rest true cts oth
        | none => check_command_loop rest true cts oth
    else check_command_loop rest req cts oth

/-- The `check_command` plan-level gate of `core/safety.py`. -/
def check_command (cmd : Command) : SafetyDecision :=
  if cmd.steps = [] then ⟨true, "chat", false, none⟩
  else check_command_loop cmd.steps false [] []

/-- Declarative reading of the close-target collection: the `app_name` of every
step whose decision requires confirmation, whose intent is `CLOSE_APP`, and
whose `app_name` is non-empty, in step order. -/
def closeTargetsOf (steps : List ActionStep) : List String :=
  steps.filterMap fun st =>
    if (check_step st).requires_confirmation ∧ st.intent = Intent.CLOSE_APP ∧
       getS st.args "app_name" ≠ ""
    then some (getS st.args "app_name") else none

/-- Declarative reading of the non-close confirmation prompts: the non-empty
prompt of every step whose decision requires confirmation and whose intent is
not `CLOSE_APP`, in step order. -/
def otherPromptsOf (steps : List ActionStep) : List String :=
  steps.filterMap fun st =>
    if (check_step st).requires_confirmation ∧ st.intent ≠ Intent.CLOSE_APP then
      match (check_step st).prompt with
      | some p => if p ≠ "" then some p else none
      | none => none
    else none

/-- Whether some step requires confirmation. -/
def anyConfirm (steps : List ActionStep) : Bool :=
  steps.any fun st => (check_step st).requires_confirmation

theorem closeTargetsOf_cons (st : ActionStep) (rest : List ActionStep) :
    closeTargetsOf (st :: rest) =
      (if (check_step st).requires_confirmation ∧ st.intent = Intent.CLOSE_APP ∧
          getS st.args "app_name" ≠ ""
       then [getS st.args "app_name"] else []) ++ closeTargetsOf rest := by
  simp only [closeTargetsOf, List.filterMap_cons]
  split_ifs with h <;> simp [h]

theorem otherPromptsOf_cons (st : ActionStep) (rest : List ActionStep) :
    otherPromptsOf (st :: rest) =
      (if (check_step st).requires_confirmation ∧ st.intent ≠ Intent.CLOSE_APP then
         match (check_step st).prompt with
         | some p => if p ≠ "" then [p] else []
         | none => []
       else []) ++ otherPromptsOf rest := by
  simp only [otherPromptsOf, List.filterMap_cons]
  split_ifs with h
  · rcases hp : (check_step st).prompt with _ | p <;> simp [hp]
    split_ifs <;> simp
  · simp [h]

/-- Loop invariant for `check_command_loop` over an all-allowed step list: the
result is the combined-prompt builder applied to the accumulators extended by
the declarative collections. -/
theorem check_command_loop_spec (steps : List ActionStep) :
    ∀ (req : Bool) (cts oth : List String),
      (∀ st ∈ steps, (check_step st).allowed = true) →
      check_command_loop steps req cts oth =
        buildCombined (req || anyConfirm steps) (cts ++ closeTargetsOf steps)
          (oth ++ otherPromptsOf steps) := by
  induction steps with
  | nil => intro req cts oth _; simp [check_command_loop, anyConfirm, closeTargetsOf, otherPromptsOf]
  | cons st rest ih =>
    intro req cts oth h
    have hst : (check_step st).allowed = true := h st (List.mem_cons_self st rest)
    have hrest : ∀ s ∈ rest, (check_step s).allowed = true :=
      fun s hs => h s (List.mem_cons_of_mem st hs)
    have hany : anyConfirm (st :: rest) =
        ((check_step st).requires_confirmation || anyConfirm rest) := by
      simp [anyConfirm]
    rw [check_command_loop]
    simp only [hst, Bool.true_eq_false, if_false]
    by_cases hreq : (check_step st).requires_confirmation = true
    · simp only [hreq, if_true]
      by_cases hcl : st.intent = Intent.CLOSE_APP
      · simp only [hcl, if_true]
        rw [ih true _ _ hrest]
        rw [closeTargetsOf_cons, otherPromptsOf_cons]
        simp [hreq, hcl, hany, List.append_assoc]
      · simp only [hcl, if_false]
        rcases hp : (check_step st).prompt with _ | p
        · rw [ih true cts oth hrest, closeTargetsOf_cons, otherPromptsOf_cons]
          simp [hreq, hcl, hp, hany]
        · by_cases hpe : p ≠ ""
          · simp only [hpe, if_true]
            rw [ih true _ _ hrest, closeTargetsOf_cons, otherPromptsOf_cons]
            simp [hreq, hcl, hp, hpe, hany, List.append_assoc]
          · simp only [hpe, if_false]
            rw [ih true cts oth hrest, closeTargetsOf_cons, otherPromptsOf_cons]
            simp only [ne_eq, Decidable.not_not] at hpe
            simp [hreq, hcl, hp, hpe, hany]
    · have hreq' : (check_step st).requires_confirmation = false := by
        simpa using hreq
      simp only [hreq', Bool.false_eq_true, if_false]
      rw [ih req cts oth hrest, closeTargetsOf_cons, otherPromptsOf_cons]
      simp [hreq', hany]

/-- Helper for C4: whenever the list starts with allowed steps and then a
blocking step, the loop returns that step's decision whatever the
accumulators hold. -/
theorem check_command_loop_first_block (pre : List ActionStep) :
    ∀ (post : List ActionStep) (st : ActionStep) (req : Bool) (cts oth : List String),
      (∀ s ∈ pre, (check_step s).allowed = true) →
      (check_step st).allowed = false →
      check_command_loop (pre ++ st :: post) req cts oth = check_step st := by
  induction pre with
  | nil =>
    intro post st req cts oth _ hst
    rw [List.nil_append, check_command_loop]
    simp [hst]
  | cons p pre ih =>
    intro post st req cts oth hpre hst
    have hp : (check_step p).allowed = true := hpre p (List.mem_cons_self p pre)
    have hpre' : ∀ s ∈ pre, (check_step s).allowed = true :=
      fun s hs => hpre s (List.mem_cons_of_mem p hs)
    rw [List.cons_append, check_command_loop]
    simp only [hp, Bool.true_eq_false, if_false]
    by_cases hreq : (check_step p).requires_confirmation = true
    · simp only [hreq, if_true]
      by_cases hcl : p.intent = Intent.CLOSE_APP
      · simp only [hcl, if_true]
        exact ih post st true _ oth hpre' hst
      · simp only [hcl, if_false]
        rcases hpr : (check_step p).prompt with _ | q
        · exact ih post st true cts oth hpre' hst
        · show (if q ≠ "" then check_command_loop (pre ++ st :: post) true cts (oth ++ [q])
                else check_command_loop (pre ++ st :: post) true cts oth) = check_step st
          by_cases hq : q ≠ ""
          · rw [if_pos hq]
            exact ih post st true cts (oth ++ [q]) hpre' hst
          · rw [if_neg hq]
            exact ih post st true cts oth hpre' hst
    · have hreq' : (check_step p).requires_confirmation = false := by simpa using hreq
      simp only [hreq', Bool.false_eq_true, if_false]
      exact ih post st req cts oth hpre' hst

/-- C4: for every non-empty step list containing a step whose per-step decision
is not allowed, `check_command` returns exactly the per-step decision of the
first such blocking step (so `allowed = false`), no matter what comes after
it: the first blocking decision short-circuits and vetoes the whole plan. -/
theorem C4_first_block_vetoes_plan (raw : String) (plan : Option String)
    (pre post : List ActionStep) (st : ActionStep)
    (hpre : ∀ s ∈ pre, (check_step s).allowed = true)
    (hst : (check_step st).allowed = false) :
    check_command ⟨raw, plan, pre ++ st :: post⟩ = check_step st ∧
      (check_command ⟨raw, plan, pre ++ st :: post⟩).allowed = false := by
  have hne : pre ++ st :: post ≠ [] := by
    intro h
    exact absurd (List.append_eq_nil.mp h).2 (List.cons_ne_nil st post)
  have : check_command ⟨raw, plan, pre ++ st :: post⟩ = check_step st := by
    rw [check_command]
    simp only [hne, if_false]
    exact check_command_loop_first_block pre post st false [] [] hpre hst
  exact ⟨this, this ▸ hst⟩

/-- Witness for C4 at a concrete plan: an allowed `OPEN_APP` step followed by a
blocking `UNKNOWN` step and a trailing `STOP_NEXUS` step; the plan decision is
the `UNKNOWN` step's blocked decision. -/
theorem C4_first_block_vetoes_plan_witness :
    check_command ⟨"do things", none,
        [⟨Intent.OPEN_APP, [("app_name", "Safari")]⟩] ++
          ⟨Intent.UNKNOWN, []⟩ :: [⟨Intent.STOP_NEXUS, []⟩]⟩ =
      ⟨false, "unknown intent", false, some "I don't understand that command."⟩ :=
  ((C4_first_block_vetoes_plan "do things" none
      [⟨Intent.OPEN_APP, [("app_name", "Safari")]⟩] [⟨Intent.STOP_NEXUS, []⟩]
      ⟨Intent.UNKNOWN, []⟩ (by decide) (by decide)).1).trans (by decide)

/-- C2 (amended): for a non-empty step list in which no per-step decision
blocks, `check_command` returns an allowed decision whose confirmation flag is
the disjunction of the per-step flags and whose prompt is the combined prompt
built from the close targets (merged by the comma/"and" join rule) and from
ALL non-close confirmation prompts, space-joined after " Also: "; only when
there are no close targets is just the first non-close prompt surfaced. -/
theorem C2_combined_prompt (cmd : Command)
    (h1 : cmd.steps ≠ [])
    (h2 : ∀ st ∈ cmd.steps, (check_step st).allowed = true) :
    check_command cmd =
      buildCombined (anyConfirm cmd.steps) (closeTargetsOf cmd.steps)
        (otherPromptsOf cmd.steps) := by
  rw [check_command]
  simp only [h1, if_false]
  rw [check_command_loop_spec cmd.steps false [] [] h2]
  simp

/-- Witness for C2 at the spec scenario "close chrome and discord": two
`CLOSE_APP` steps produce the combined prompt
"I'll close Google Chrome and Discord. Confirm?". -/
theorem C2_combined_prompt_witness :
    check_command ⟨"close chrome and discord", some "(turn_plan)",
        [⟨Intent.CLOSE_APP, [("app_name", "Google Chrome")]⟩,
         ⟨Intent.CLOSE_APP, [("app_name", "Discord")]⟩]⟩ =
      ⟨true, "ok", true, some "I'll close Google Chrome and Discord. Confirm?"⟩ :=
  (C2_combined_prompt
      ⟨"close chrome and discord", some "(turn_plan)",
        [⟨Intent.CLOSE_APP, [("app_name", "Google Chrome")]⟩,
         ⟨Intent.CLOSE_APP, [("app_name", "Discord")]⟩]⟩
      (by decide) (by decide)).trans (by decide)

/-- Counterexample to C2 as stated: with one close step and two non-close
confirmation steps, the combined prompt contains BOTH non-close confirmation
prompts, not at most the first one. -/
theorem C2_counterexample :
    check_command ⟨"close discord then shut down and restart", none,
        [⟨Intent.CLOSE_APP, [("app_name", "Discord")]⟩,
         ⟨Intent.STOP_NEXUS, []⟩, ⟨Intent.RESTART_NEXUS, []⟩]⟩ =
      ⟨true, "ok", true,
       some ("I'll close Discord. Confirm? Also: " ++
             "I'm about to shut down completely. Are you sure? " ++
             "I'm about to restart myself. Confirm?")⟩ ∧
    occursS "I'm about to shut down completely. Are you sure?"
      ("I'll close Discord. Confirm? Also: " ++
       "I'm about to shut down completely. Are you sure? " ++
       "I'm about to restart myself. Confirm?") = true ∧
    occursS "I'm about to restart myself. Confirm?"
      ("I'll close Discord. Confirm? Also: " ++
       "I'm about to shut down completely. Are you sure? " ++
       "I'm about to restart myself. Confirm?") = true := by
  decide

/-- C5: for every `CLOSE_APP` step, `check_step` blocks when `app_name` is
missing, empty, or whitespace-only; blocks with reason "protected" when the
trimmed `app_name` is in the fixed protected-app set; and otherwise allows
with `requires_confirmation` always true. -/
theorem C5_close_app_policy (args : Args) :
    (pyStrip (getS args "app_name") = "" →
       check_step ⟨Intent.CLOSE_APP, args⟩ =
         ⟨false, "missing app_name", false, some "Which app should I close?"⟩) ∧
    (pyStrip (getS args "app_name") ≠ "" →
       pyStrip (getS args "app_name") ∈ PROTECTED_APPS →
       (check_step ⟨Intent.CLOSE_APP, args⟩).allowed = false ∧
       (check_step ⟨Intent.CLOSE_APP, args⟩).reason = "protected") ∧
    (pyStrip (getS args "app_name") ≠ "" →
       pyStrip (getS args "app_name") ∉ PROTECTED_APPS →
       (check_step ⟨Intent.CLOSE_APP, args⟩).allowed = true ∧
       (check_step ⟨Intent.CLOSE_APP, args⟩).requires_confirmation = true) := by
  have hdef : check_step ⟨Intent.CLOSE_APP, args⟩ =
      (if getS args "app_name" = "" ∨ pyStrip (getS args "app_name") = "" then
         ⟨false, "missing app_name", false, some "Which app should I close?"⟩
       else if pyStrip (getS args "app_name") ∈ PROTECTED_APPS then
         ⟨false, "protected", false,
          some ("I can't close " ++ getS args "app_name" ++
                " - it's a protected system app.")⟩
       else ⟨true, "ok", true,
             some ("I'll close " ++ getS args "app_name" ++ ". Confirm?")⟩) := by
    simp [check_step]
  refine ⟨fun hs => ?_, fun hs hmem => ?_, fun hs hmem => ?_⟩
  · rw [hdef, if_pos (Or.inr hs)]
  · have hne : ¬(getS args "app_name" = "" ∨ pyStrip (getS args "app_name") = "") := by
      rintro (h | h)
      · exact hs (by rw [h]; decide)
      · exact hs h
    rw [hdef, if_neg hne, if_pos hmem]
    exact ⟨rfl, rfl⟩
  · have hne : ¬(getS args "app_name" = "" ∨ pyStrip (getS args "app_name") = "") := by
      rintro (h | h)
      · exact hs (by rw [h]; decide)
      · exact hs h
    rw [hdef, if_neg hne, if_neg hmem]
    exact ⟨rfl, rfl⟩

/-- Witness for C5: blocked on the protected app "Finder", allowed with
confirmation on "Discord", blocked on a whitespace-only name. -/
theorem C5_close_app_policy_witness :
    (check_step ⟨Intent.CLOSE_APP, [("app_name", "Finder")]⟩).allowed = false ∧
    (check_step ⟨Intent.CLOSE_APP, [("app_name", "Finder")]⟩).reason = "protected" ∧
    (check_step ⟨Intent.CLOSE_APP, [("app_name", "Discord")]⟩).allowed = true ∧
    (check_step ⟨Intent.CLOSE_APP, [("app_name", "Discord")]⟩).requires_confirmation = true ∧
    check_step ⟨Intent.CLOSE_APP, [("app_name", "  ")]⟩ =
      ⟨false, "missing app_name", false, some "Which app should I close?"⟩ :=
  ⟨((C5_close_app_policy [("app_name", "Finder")]).2.1 (by decide) (by decide)).1,
   ((C5_close_app_policy [("app_name", "Finder")]).2.1 (by decide) (by decide)).2,
   ((C5_close_app_policy [("app_name", "Discord")]).2.2 (by decide) (by decide)).1,
   ((C5_close_app_policy [("app_name", "Discord")]).2.2 (by decide) (by decide)).2,
   (C5_close_app_policy [("app_name", "  ")]).1 (by decide)⟩

set_option maxHeartbeats 2000000 in
/-- C10 (amended): a step with the `UNKNOWN` intent is blocked, but with
reason "unknown intent" (its own dedicated first branch); moreover no step at
all can produce the reason "no policy" — every member of the `Intent` enum has
an explicit rule, so the dispatch table's fail-closed default of line 236 is
unreachable. -/
theorem C10_unknown_blocked_no_policy_dead (step : ActionStep) :
    (step.intent = Intent.UNKNOWN →
       (check_step step).allowed = false ∧
       (check_step step).reason = "unknown intent") ∧
    (check_step step).reason ≠ "no policy" := by
  obtain ⟨i, args⟩ := step
  constructor
  · intro h
    have h' : i = Intent.UNKNOWN := h
    subst h'
    exact ⟨rfl, rfl⟩
  · cases i <;> simp only [check_step] <;> split_ifs <;> simp

/-- Witness for C10 at the `UNKNOWN` step with empty args. -/
theorem C10_unknown_blocked_no_policy_dead_witness :
    ((check_step ⟨Intent.UNKNOWN, []⟩).allowed = false ∧
     (check_step ⟨Intent.UNKNOWN, []⟩).reason = "unknown intent") ∧
    (check_step ⟨Intent.UNKNOWN, []⟩).reason ≠ "no policy" :=
  ⟨(C10_unknown_blocked_no_policy_dead ⟨Intent.UNKNOWN, []⟩).1 rfl,
   (C10_unknown_blocked_no_policy_dead ⟨Intent.UNKNOWN, []⟩).2⟩

/-- Counterexample to C10 as stated: the unknown-intent step is indeed
blocked, but its reason is "unknown intent", not "no policy". -/
theorem C10_counterexample :
    (check_step ⟨Intent.UNKNOWN, []⟩).allowed = false ∧
    (check_step ⟨Intent.UNKNOWN, []⟩).reason = "unknown intent" ∧
    ¬((check_step ⟨Intent.UNKNOWN, []⟩).reason = "no policy") := by
  decide

/-- The `POSITIVE_WORDS` set of `core/helpers.py` (source order). -/
def POSITIVE_WORDS : List String :=
  ["yes", "yeah", "yep", "yup", "sure", "ok", "okay", "alright",
   "do it", "confirm", "confirmed", "go ahead", "proceed", "affirmative",
   "absolutely", "definitely", "of course", "for sure", "go for it",
   "please", "please do", "yes please", "that's right", "correct",
   "right", "uh huh", "mm hmm", "yea", "ya", "yas", "yah",
   "confer", "conf", "confir", "confirme", "go for",
   "yep yep", "yes yes", "uh-huh", "mhm"]

/-- The `NEGATIVE_WORDS` set of `core/helpers.py` (source order). -/
def NEGATIVE_WORDS : List String :=
  ["no", "nah", "nope", "cancel", "stop", "don't", "abort",
   "never", "negative", "no way", "not now", "wait", "hold on",
   "actually no", "no thanks", "nope nope"]

/-- The `POSITIVE_PREFIXES` tuple of `core/helpers.py`. -/
def POSITIVE_STARTS : List String :=
  ["ye", "su", "ok", "al", "go", "conf", "uh", "mm"]

/-- The partial-match loop of `is_confirmation_positive`: first phrase of
length above 2 contained in `clean` wins (all hits return the same constant,
so the set-iteration order of the source is irrelevant to the result). -/
def anyContainedIn (phrases : List String) (clean : String) : Bool :=
  match phrases with
  | [] => false
  | p :: rest =>
    if 2 < pyLen p ∧ occursS p clean = true then true
    else anyContainedIn rest clean

/-- Python `clean.startswith(tuple)`. -/
def startsWithAny (clean : String) (ps : List String) : Bool :=
  ps.any fun p => leadsB p.data clean.data

/-- The `is_confirmation_positive` classifier of `core/helpers.py`. -/
def is_confirmation_positive (user_text : String) : Bool :=
  if user_text = "" then false
  else
    let clean := pyStrip (pyLower user_text)
    if POSITIVE_WORDS.contains clean then true
    else if NEGATIVE_WORDS.contains clean then false
    else if anyContainedIn POSITIVE_WORDS clean then true
    else if anyContainedIn NEGATIVE_WORDS clean then false
    else if startsWithAny clean POSITIVE_STARTS then true
    else false

theorem anyContainedIn_iff (ps : List String) (c : String) :
    anyContainedIn ps c = true ↔ ∃ p ∈ ps, 2 < pyLen p ∧ occursS p c = true := by
  induction ps with
  | nil => simp [anyContainedIn]
  | cons p rest ih =>
    rw [anyContainedIn]
    split_ifs with h
    · exact iff_of_true rfl ⟨p, List.mem_cons_self p rest, h⟩
    · rw [ih]
      constructor
      · rintro ⟨q, hq, hcond⟩
        exact ⟨q, List.mem_cons_of_mem p hq, hcond⟩
      · rintro ⟨q, hq, hcond⟩
        rcases List.mem_cons.mp hq with rfl | hq'
        · exact absurd hcond h
        · exact ⟨q, hq', hcond⟩

/-- C7: the confirmation interpreter decides positivity by, in order: exact
match in the positive set, exact match in the negative set, containment of a
positive phrase longer than 2 characters, containment of a negative phrase
longer than 2 characters, a positive prefix match, and a default of false;
in particular it accepts "yes please", rejects "nope nope", and rejects the
empty string. -/
theorem C7_confirmation_algorithm (s : String) :
    (is_confirmation_positive s = true ↔
      (s ≠ "" ∧
        (pyStrip (pyLower s) ∈ POSITIVE_WORDS ∨
          (pyStrip (pyLower s) ∉ NEGATIVE_WORDS ∧
            ((∃ p ∈ POSITIVE_WORDS, 2 < pyLen p ∧ occursS p (pyStrip (pyLower s)) = true) ∨
              ((∀ p ∈ NEGATIVE_WORDS, ¬(2 < pyLen p ∧ occursS p (pyStrip (pyLower s)) = true)) ∧
                ∃ p ∈ POSITIVE_STARTS,
                  leadsB p.data (pyStrip (pyLower s)).data = true)))))) ∧
    is_confirmation_positive "yes please" = true ∧
    is_confirmation_positive "nope nope" = false ∧
    is_confirmation_positive "" = false := by
  refine ⟨?_, by decide, by decide, by decide⟩
  by_cases h0 : s = ""
  · simp [is_confirmation_positive, h0]
  · rw [is_confirmation_positive, if_neg h0]
    simp only [ne_eq, h0, not_false_iff, true_and]
    by_cases h1 : pyStrip (pyLower s) ∈ POSITIVE_WORDS
    · have : POSITIVE_WORDS.contains (pyStrip (pyLower s)) = true := by
        simpa using h1
      rw [if_pos this]
      exact iff_of_true rfl (Or.inl h1)
    · have hc1 : ¬POSITIVE_WORDS.contains (pyStrip (pyLower s)) = true := by
        simpa using h1
      rw [if_neg hc1]
      by_cases h2 : pyStrip (pyLower s) ∈ NEGATIVE_WORDS
      · have : NEGATIVE_WORDS.contains (pyStrip (pyLower s)) = true := by
          simpa using h2
        rw [if_pos this]
        constructor
        · intro h; exact absurd h (by simp)
        · rintro (hp | ⟨hn, _⟩)
          · exact absurd hp h1
          · exact absurd h2 hn
      · have hc2 : ¬NEGATIVE_WORDS.contains (pyStrip (pyLower s)) = true := by
          simpa using h2
        rw [if_neg hc2]
        by_cases h3 : anyContainedIn POSITIVE_WORDS (pyStrip (pyLower s)) = true
        · rw [if_pos h3]
          exact iff_of_true rfl
            (Or.inr ⟨h2, Or.inl ((anyContainedIn_iff _ _).mp h3)⟩)
        · rw [if_neg h3]
          by_cases h4 : anyContainedIn NEGATIVE_WORDS (pyStrip (pyLower s)) = true
          · rw [if_pos h4]
            constructor
            · intro h; exact absurd h (by simp)
            · rintro (hp | ⟨_, hrest⟩)
              · exact absurd hp h1
              · rcases hrest with hcont | ⟨hneg, _⟩
                · exact absurd hcont ((anyContainedIn_iff _ _).not.mp h3)
                · rcases (anyContainedIn_iff _ _).mp h4 with ⟨q, hq, hqc⟩
                  exact absurd hqc (hneg q hq)
          · rw [if_neg h4]
            have hns : ∀ p ∈ NEGATIVE_WORDS,
                ¬(2 < pyLen p ∧ occursS p (pyStrip (pyLower s)) = true) := by
              intro p hp hcond
              exact h4 ((anyContainedIn_iff _ _).mpr ⟨p, hp, hcond⟩)
            have hps : ¬∃ p ∈ POSITIVE_WORDS,
                2 < pyLen p ∧ occursS p (pyStrip (pyLower s)) = true :=
              (anyContainedIn_iff _ _).not.mp h3
            constructor
            · intro h
              have hst : startsWithAny (pyStrip (pyLower s)) POSITIVE_STARTS = true := by
                by_cases h5 : startsWithAny (pyStrip (pyLower s)) POSITIVE_STARTS = true
                · exact h5
                · rw [if_neg h5] at h; exact absurd h (by simp)
              refine Or.inr ⟨h2, Or.inr ⟨hns, ?_⟩⟩
              simpa [startsWithAny, List.any_eq_true] using hst
            · rintro (hp | ⟨_, hrest⟩)
              · exact absurd hp h1
              · rcases hrest with hcont | ⟨_, hpre⟩
                · exact absurd hcont hps
                · have : startsWithAny (pyStrip (pyLower s)) POSITIVE_STARTS = true := by
                    simpa [startsWithAny, List.any_eq_true] using hpre
                  rw [if_pos this]

/-- Witness for C7: the theorem instantiated at "yes please", projected to
the example conjuncts. -/
theorem C7_confirmation_algorithm_witness :
    is_confirmation_positive "yes please" = true ∧
    is_confirmation_positive "nope nope" = false ∧
    is_confirmation_positive "" = false :=
  (C7_confirmation_algorithm "yes please").2

/-- The `WRITE_CONFIDENCE_AUTO` threshold of `core/helpers.py`. -/
def WRITE_CONFIDENCE_AUTO : ℚ := 65 / 100

/-- The `WRITE_CONFIDENCE_ASK` threshold of `core/helpers.py`. -/
def WRITE_CONFIDENCE_ASK : ℚ := 60 / 100

/-- Decision core of `_handle_memory_ops` (`core/orchestrator.py`, lines
370-395): whether the proposed note is stored, as a function of the write
proposal's `should_store` flag, its confidence, and the optional spoken reply
returned by `listen_to_user` in the ask tier (`none` models no input). The
ask tier of the source checks `conf_ans and "yes" in conf_ans.lower()`. -/
def memory_write_allowed (should_store : Bool) (conf : ℚ) (reply : Option String) : Bool :=
  if should_store = false then false
  else if WRITE_CONFIDENCE_AUTO ≤ conf then true
  else if WRITE_CONFIDENCE_ASK ≤ conf then
    match reply with
    | some ans => if ans ≠ "" ∧ occursS "yes" (pyLower ans) = true then true else false
    | none => false
  else false

/-- C3 (amended): with `should_store` true, confidence at least 0.65 stores
unconditionally; confidence in [0.60, 0.65) stores if and only if a reply was
heard that is non-empty and contains the substring "yes" (case-insensitively)
— not the full `is_confirmation_positive` classifier; confidence below 0.60
never stores, regardless of any reply. -/
theorem C3_memory_gate_tiers (conf : ℚ) (reply : Option String) :
    (WRITE_CONFIDENCE_AUTO ≤ conf → memory_write_allowed true conf reply = true) ∧
    (WRITE_CONFIDENCE_ASK ≤ conf → conf < WRITE_CONFIDENCE_AUTO →
      (memory_write_allowed true conf reply = true ↔
        ∃ ans, reply = some ans ∧ ans ≠ "" ∧ occursS "yes" (pyLower ans) = true)) ∧
    (conf < WRITE_CONFIDENCE_ASK → memory_write_allowed true conf reply = false) := by
  refine ⟨fun hauto => ?_, fun hask hlt => ?_, fun hlow => ?_⟩
  · unfold memory_write_allowed
    rw [if_neg (by simp), if_pos hauto]
  · unfold memory_write_allowed
    rw [if_neg (by simp), if_neg (not_le.mpr hlt), if_pos hask]
    rcases reply with _ | ans
    · simp
    · show (if ans ≠ "" ∧ occursS "yes" (pyLower ans) = true then true else false) = true ↔
        ∃ a, some ans = some a ∧ a ≠ "" ∧ occursS "yes" (pyLower a) = true
      by_cases h : ans ≠ "" ∧ occursS "yes" (pyLower ans) = true
      · rw [if_pos h]
        exact iff_of_true rfl ⟨ans, rfl, h⟩
      · rw [if_neg h]
        constructor
        · intro hfalse; exact absurd hfalse (by simp)
        · rintro ⟨a, ha, hcond⟩
          cases Option.some.inj ha
          exact absurd hcond h
  · have h1 : ¬WRITE_CONFIDENCE_AUTO ≤ conf := by
      intro h
      exact absurd (lt_of_lt_of_le hlow (by norm_num [WRITE_CONFIDENCE_ASK, WRITE_CONFIDENCE_AUTO]))
        (not_lt.mpr h)
    unfold memory_write_allowed
    rw [if_neg (by simp), if_neg h1, if_neg (not_le.mpr hlow)]

/-- Witness for C3 at the spec's three sample confidences: 0.70 stores with no
reply, 0.62 stores on the reply "yes", 0.40 never stores even on "yes". -/
theorem C3_memory_gate_tiers_witness :
    memory_write_allowed true (70 / 100) none = true ∧
    memory_write_allowed true (62 / 100) (some "yes") = true ∧
    memory_write_allowed true (40 / 100) (some "yes") = false :=
  ⟨(C3_memory_gate_tiers (70 / 100) none).1
      (by norm_num [WRITE_CONFIDENCE_AUTO]),
   ((C3_memory_gate_tiers (62 / 100) (some "yes")).2.1
      (by norm_num [WRITE_CONFIDENCE_ASK]) (by norm_num [WRITE_CONFIDENCE_AUTO])).mpr
      ⟨"yes", rfl, by decide, by decide⟩,
   (C3_memory_gate_tiers (40 / 100) (some "yes")).2.2
      (by norm_num [WRITE_CONFIDENCE_ASK])⟩

/-- Counterexample to C3 as stated: in the ask tier (confidence 0.62) the
reply "sure" is positive for `is_confirmation_positive`, yet the note is not
stored, because the source checks for the substring "yes" instead. -/
theorem C3_counterexample :
    memory_write_allowed true (62 / 100) (some "sure") = false ∧
    is_confirmation_positive "sure" = true := by
  constructor
  · unfold memory_write_allowed
    rw [if_neg (by simp), if_neg (by norm_num [WRITE_CONFIDENCE_AUTO]),
        if_pos (by norm_num [WRITE_CONFIDENCE_ASK])]
    show (if "sure" ≠ "" ∧ occursS "yes" (pyLower "sure") = true then true else false) = false
    rw [if_neg (by decide)]
  · decide

/-- Model of one entry of the planner's raw `actions` JSON list
(`core/planner.py`, `_coerce_action_steps`): the surrounding `Option` is
`none` for a non-dict entry (skipped by the source); `intent` holds
`str(s.get("intent", ""))` and `args` holds the args value when it is a dict
(`none` models a missing or non-dict `args`). -/
structure RawAction where
  intent : String
  args : Option Args
  deriving DecidableEq, Repr

/-- Python `Intent[name]` when `name in Intent.__members__` (member names
equal their values). -/
def intentOfName? : String → Option Intent
  | "UNKNOWN" => some .UNKNOWN
  | "OPEN_APP" => some .OPEN_APP
  | "CLOSE_APP" => some .CLOSE_APP
  | "CLOSE_ALL_APPS" => some .CLOSE_ALL_APPS
  | "SEARCH_WEB" => some .SEARCH_WEB
  | "CREATE_NOTE" => some .CREATE_NOTE
  | "OPEN_URL" => some .OPEN_URL
  | "CONTACTS" => some .CONTACTS
  | "MAIL" => some .MAIL
  | "REMINDERS" => some .REMINDERS
  | "CALENDAR" => some .CALENDAR
  | "MAPS" => some .MAPS
  | "SEND_MESSAGE" => some .SEND_MESSAGE
  | "TYPE_TEXT" => some .TYPE_TEXT
  | "READ_MESSAGES" => some .READ_MESSAGES
  | "READ_SCREEN" => some .READ_SCREEN
  | "REMEMBER_THIS" => some .REMEMBER_THIS
  | "RECALL_MEMORY" => some .RECALL_MEMORY
  | "UPDATE_MEMORY" => some .UPDATE_MEMORY
  | "FORGET_THIS" => some .FORGET_THIS
  | "LIST_MEMORIES" => some .LIST_MEMORIES
  | "EXIT" => some .EXIT
  | "STOP_NEXUS" => some .STOP_NEXUS
  | "RESTART_NEXUS" => some .RESTART_NEXUS
  | _ => none

/-- Per-entry coercion of `_coerce_action_steps`: upper-case the intent name,
fall back to `UNKNOWN` for a non-member, default missing args to the empty
dict. -/
def coerce_step (s : RawAction) : ActionStep :=
  ⟨(intentOfName? (pyUpper s.intent)).getD Intent.UNKNOWN, s.args.getD []⟩

/-- The `_coerce_action_steps` normalization of `core/planner.py`: coerce
every dict entry, then, when any step has intent `CLOSE_ALL_APPS`, keep only
the first such step (`if any(...): return [next(...)]`). -/
def coerce_action_steps (raw : List (Option RawAction)) : List ActionStep :=
  let steps := raw.filterMap fun s => s.map coerce_step
  match steps.find? (fun st => st.intent == Intent.CLOSE_ALL_APPS) with
  | some first => [first]
  | none => steps

/-- C1: whenever the coerced action list contains a `CLOSE_ALL_APPS` step
(i.e. `find?` returns its first one), the normalized list consists of exactly
that one step and nothing else. -/
theorem C1_close_all_sole_action (raw : List (Option RawAction)) (st : ActionStep)
    (h : (raw.filterMap fun s => s.map coerce_step).find?
        (fun st => st.intent == Intent.CLOSE_ALL_APPS) = some st) :
    coerce_action_steps raw = [st] ∧ st.intent = Intent.CLOSE_ALL_APPS := by
  constructor
  · rw [coerce_action_steps]
    simp only [h]
  · have hp := List.find?_some h
    simpa using hp

/-- Witness for C1: a plan with an `OPEN_APP` step, two `CLOSE_ALL_APPS`
steps (one spelled in lower case), and a non-dict entry normalizes to exactly
the first `CLOSE_ALL_APPS` step. -/
theorem C1_close_all_sole_action_witness :
    coerce_action_steps
        [some ⟨"open_app", some [("app_name", "Safari")]⟩,
         some ⟨"close_all_apps", none⟩, none,
         some ⟨"CLOSE_ALL_APPS", some []⟩] =
      [⟨Intent.CLOSE_ALL_APPS, []⟩] :=
  (C1_close_all_sole_action
      [some ⟨"open_app", some [("app_name", "Safari")]⟩,
       some ⟨"close_all_apps", none⟩, none,
       some ⟨"CLOSE_ALL_APPS", some []⟩]
      ⟨Intent.CLOSE_ALL_APPS, []⟩ (by decide)).1

/-- One record of the `tool_bundle["actions"]` result list. -/
structure ResultRec where
  intent : String
  ok : Bool
  message : String
  deriving DecidableEq, Repr

/-- The record appended when the interrupt flag is observed before a step
(`core/orchestrator.py`, line 438). -/
def cancelledRec : ResultRec := ⟨"CANCELLED", false, "Interrupted by user"⟩

/-- The step loop of `_execute_actions` (`core/orchestrator.py`, lines
434-441): the interrupt flag is sampled before each step and never during
one; `intr i` is the flag observed at the check preceding the step with index
`i`, and `exec` abstracts `_execute_step`, giving the single result record
each executed step appends. On an observed interrupt, one `CANCELLED` record
is appended for the remaining steps and the loop breaks. -/
def execute_actions_loop (exec : ActionStep → ResultRec) (intr : Nat → Bool) :
    Nat → List ActionStep → List ResultRec
  | _, [] => []
  | i, st :: rest =>
    if intr i then [cancelledRec]
    else exec st :: execute_actions_loop exec intr (i + 1) rest

/-- Helper for C6: the execution loop from an arbitrary starting index. -/
theorem execute_actions_loop_interrupt (exec : ActionStep → ResultRec)
    (intr : Nat → Bool) (steps : List ActionStep) :
    ∀ (k base : Nat), k < steps.length →
      (∀ j, j < k → intr (base + j) = false) → intr (base + k) = true →
      execute_actions_loop exec intr base steps =
        (steps.take k).map exec ++ [cancelledRec] := by
  induction steps with
  | nil => intro k base hk _ _; exact absurd hk (by simp)
  | cons st rest ih =>
    intro k base hk hbefore hat
    cases k with
    | zero =>
      rw [execute_actions_loop, if_pos (by simpa using hat)]
      simp
    | succ k' =>
      have h0 : intr base = false := by simpa using hbefore 0 (Nat.succ_pos k')
      rw [execute_actions_loop, if_neg (by simp [h0])]
      rw [ih k' (base + 1) (by simpa using Nat.lt_of_succ_lt_succ hk)
            (fun j hj => by
              have := hbefore (j + 1) (Nat.succ_lt_succ hj)
              simpa [Nat.add_assoc, Nat.add_comm 1 j] using this)
            (by simpa [Nat.add_assoc, Nat.add_comm 1 k'] using hat)]
      simp

/-- C6: during plan execution, the interrupt flag is checked before each step
(never during one); if it is first observed set at the check before step
index `k` of a longer plan, the result list is exactly the unchanged results
of the already-executed steps `0..k-1` followed by one `CANCELLED` record,
and the steps from `k` on are never executed. -/
theorem C6_interrupt_skips_remaining (exec : ActionStep → ResultRec)
    (intr : Nat → Bool) (steps : List ActionStep) (k : Nat)
    (hk : k < steps.length)
    (hbefore : ∀ j, j < k → intr j = false)
    (hat : intr k = true) :
    execute_actions_loop exec intr 0 steps =
      (steps.take k).map exec ++ [cancelledRec] := by
  have := execute_actions_loop_interrupt exec intr steps k 0 hk
    (fun j hj => by simpa using hbefore j hj) (by simpa using hat)
  exact this

/-- Witness for C6 at the spec scenario: the flag becomes set after step 1 of
a 3-step plan completes, so the results are step 1's unchanged record
followed by one `CANCELLED` record, and steps 2 and 3 never run. -/
theorem C6_interrupt_skips_remaining_witness :
    execute_actions_loop
        (fun st => ⟨st.intent.value, true, "done"⟩)
        (fun i => decide (1 ≤ i)) 0
        [⟨Intent.OPEN_APP, [("app_name", "Safari")]⟩,
         ⟨Intent.OPEN_URL, [("url", "https://example.com")]⟩,
         ⟨Intent.SEARCH_WEB, [("query", "weather")]⟩] =
      [⟨"OPEN_APP", true, "done"⟩, cancelledRec] :=
  (C6_interrupt_skips_remaining
      (fun st => ⟨st.intent.value, true, "done"⟩)
      (fun i => decide (1 ≤ i))
      [⟨Intent.OPEN_APP, [("app_name", "Safari")]⟩,
       ⟨Intent.OPEN_URL, [("url", "https://example.com")]⟩,
       ⟨Intent.SEARCH_WEB, [("query", "weather")]⟩]
      1 (by decide) (by decide) (by decide)).trans (by decide)

/-- The `APP_ALIASES` table of `core/helpers.py` (insertion order). -/
def APP_ALIASES : List (String × List String) :=
  [("google chrome", ["chrome"]),
   ("visual studio code", ["vscode", "code", "vs code"]),
   ("messages", ["message"]),
   ("system settings", ["settings"]),
   ("notes", ["note"]),
   ("music", ["itunes"]),
   ("itunes", ["music"]),
   ("microsoft teams", ["teams"]),
   ("microsoft word", ["word"]),
   ("microsoft excel", ["excel"])]

/-- First whitespace-separated token (Python `al.split()[0]`); total where the
source would raise `IndexError` on an all-whitespace name, which the
non-degenerate-name hypothesis of C8 rules out. -/
def firstWord (s : String) : String :=
  ⟨(s.data.dropWhile isPySpace).takeWhile fun c => !isPySpace c⟩

/-- The alias collection built for one running app (`detect_close_targets`,
`core/helpers.py` lines 139-148), determinized to a list in construction
order: the lowercased name, then the alias-table entries whose key occurs in
the name, then the first word of the name when it contains a space (else the
name again). The source iterates a Python set here, whose order is
unspecified; only which alias matches first can depend on it, and every
theorem below quantifies over or computes that choice through this fixed
order. -/
def aliasesOf (app : String) : List String :=
  let al := pyLower app
  [al] ++
    (APP_ALIASES.foldl (fun acc kv => if occursS kv.1 al = true then acc ++ kv.2 else acc) []) ++
    [if occursS " " al = true then firstWord al else al]

/-- The per-app alias scan of `detect_close_targets` (lines 150-156): skip
empty aliases and aliases shorter than 3 characters, return the utterance
index of the first alias found, stop at the first hit. -/
def matchFrom (t : String) : List String → Option Nat
  | [] => none
  | a :: rest =>
    if a = "" ∨ pyLen a < 3 then matchFrom t rest
    else
      match findS a t with
      | some idx => some idx
      | none => matchFrom t rest

/-- Match index recorded for one running app. -/
def matchOf (t : String) (app : String) : Option Nat :=
  matchFrom t (aliasesOf app)

/-- Sort key order of `matches.sort(key=lambda x: x[0])`. -/
def keyLe (x y : Nat × String) : Prop := x.1 ≤ y.1

instance : DecidableRel keyLe := fun x y => Nat.decLe x.1 y.1

instance : IsTotal (Nat × String) keyLe := ⟨fun x y => Nat.le_total x.1 y.1⟩

instance : IsTrans (Nat × String) keyLe := ⟨fun _ _ _ h h' => Nat.le_trans h h'⟩

/-- The seen-set dedup of `detect_close_targets` (lines 160-161), keeping the
first occurrence of each app name. -/
def dedupKeepFirst (seen : List String) : List String → List String
  | [] => []
  | a :: rest =>
    if a ∈ seen then dedupKeepFirst seen rest
    else a :: dedupKeepFirst (a :: seen) rest

/-- The match-collect-sort-dedup core of `detect_close_targets` (lines
136-161): collect `(t.find(alias), app)` per app, stable-sort by index,
dedup by app name. -/
def detect_close_core (t : String) (running_apps : List String) : List String :=
  dedupKeepFirst []
    ((List.insertionSort keyLe
      (running_apps.filterMap fun app =>
        (matchOf t app).map fun idx => (idx, app))).map Prod.snd)

/-- The `detect_close_targets` function of `core/helpers.py`. The source's
`matches.sort(key=lambda x: x[0])` is a stable sort by match index;
`List.insertionSort keyLe` computes the same stable order. -/
def detect_close_targets (raw : String) (running_apps : List String) : List String :=
  if raw = "" then []
  else
    if ¬(occursS "close" (pyLower raw) = true ∨ occursS "quit" (pyLower raw) = true ∨
        occursS "exit" (pyLower raw) = true) then []
    else if occursS "close all" (pyLower raw) = true ∨
        occursS "quit everything" (pyLower raw) = true ∨
        occursS "close everything" (pyLower raw) = true then []
    else detect_close_core (pyLower raw) running_apps

theorem findAt_isSome (p : List Char) (l : List Char) :
    (findAt p l).isSome = occursB p l := by
  induction l with
  | nil =>
    rw [findAt, occursB]
    split_ifs with h <;> simp_all
  | cons c rest ih =>
    rw [findAt, occursB]
    split_ifs with h
    · simp_all
    · have h' : leadsB p (c :: rest) = false := by simpa using h
      simpa [h', Option.isSome_map] using ih

theorem occursS_iff_findS (a t : String) :
    occursS a t = true ↔ ∃ i, findS a t = some i := by
  rw [occursS, findS, ← findAt_isSome]
  cases h : findAt a.data t.data <;> simp [h]

theorem matchFrom_isSome (t : String) (as : List String) :
    (∃ i, matchFrom t as = some i) ↔
      ∃ a ∈ as, 3 ≤ pyLen a ∧ occursS a t = true := by
  induction as with
  | nil => simp [matchFrom]
  | cons a rest ih =>
    rw [matchFrom]
    split_ifs with hskip
    · rw [ih]
      constructor
      · rintro ⟨b, hb, hcond⟩
        exact ⟨b, List.mem_cons_of_mem a hb, hcond⟩
      · rintro ⟨b, hb, hlen, hocc⟩
        rcases List.mem_cons.mp hb with rfl | hb'
        · rcases hskip with rfl | hshort
          · simp [pyLen] at hlen
          · exact absurd hlen (by omega)
        · exact ⟨b, hb', hlen, hocc⟩
    · have hlen : 3 ≤ pyLen a := by
        rcases Nat.lt_or_ge (pyLen a) 3 with h | h
        · exact absurd (Or.inr h) hskip
        · exact h
      cases hf : findS a t with
      | some idx =>
        simp only [hf]
        exact iff_of_true ⟨idx, rfl⟩
          ⟨a, List.mem_cons_self a rest, hlen, (occursS_iff_findS a t).mpr ⟨idx, hf⟩⟩
      | none =>
        simp only [hf]
        rw [ih]
        constructor
        · rintro ⟨b, hb, hcond⟩
          exact ⟨b, List.mem_cons_of_mem a hb, hcond⟩
        · rintro ⟨b, hb, hl, hocc⟩
          rcases List.mem_cons.mp hb with rfl | hb'
          · rcases (occursS_iff_findS b t).mp hocc with ⟨i, hi⟩
            rw [hi] at hf
            exact absurd hf (by simp)
          · exact ⟨b, hb', hl, hocc⟩

theorem mem_dedupKeepFirst (a : String) :
    ∀ (l : List String) (seen : List String),
      a ∈ dedupKeepFirst seen l ↔ a ∈ l ∧ a ∉ seen := by
  intro l
  induction l with
  | nil => intro seen; simp [dedupKeepFirst]
  | cons b rest ih =>
    intro seen
    rw [dedupKeepFirst]
    split_ifs with hb
    · rw [ih]
      constructor
      · rintro ⟨hmem, hns⟩
        exact ⟨List.mem_cons_of_mem b hmem, hns⟩
      · rintro ⟨hmem, hns⟩
        rcases List.mem_cons.mp hmem with rfl | hmem'
        · exact absurd hb hns
        · exact ⟨hmem', hns⟩
    · constructor
      · intro hmem
        rcases List.mem_cons.mp hmem with rfl | hmem'
        · exact ⟨List.mem_cons_self a rest, hb⟩
        · rcases (ih (b :: seen)).mp hmem' with ⟨hr, hns⟩
          exact ⟨List.mem_cons_of_mem b hr,
                 fun hin => hns (List.mem_cons_of_mem b hin)⟩
      · rintro ⟨hmem, hns⟩
        by_cases hab : a = b
        · subst hab; exact List.mem_cons_self a _
        · rcases List.mem_cons.mp hmem with rfl | hmem'
          · exact absurd rfl hab
          · exact List.mem_cons_of_mem b
              ((ih (b :: seen)).mpr ⟨hmem', by
                intro hin
                rcases List.mem_cons.mp hin with h | h
                · exact hab h
                · exact hns h⟩)

theorem dedupKeepFirst_nodup :
    ∀ (l : List String) (seen : List String), (dedupKeepFirst seen l).Nodup := by
  intro l
  induction l with
  | nil => intro seen; simp [dedupKeepFirst]
  | cons b rest ih =>
    intro seen
    rw [dedupKeepFirst]
    split_ifs with hb
    · exact ih seen
    · refine List.nodup_cons.mpr ⟨?_, ih (b :: seen)⟩
      intro hmem
      exact ((mem_dedupKeepFirst b rest (b :: seen)).mp hmem).2 (List.mem_cons_self b seen)

theorem dedupKeepFirst_sublist :
    ∀ (l : List String) (seen : List String), List.Sublist (dedupKeepFirst seen l) l := by
  intro l
  induction l with
  | nil => intro seen; simp [dedupKeepFirst]
  | cons b rest ih =>
    intro seen
    rw [dedupKeepFirst]
    split_ifs with hb
    · exact (ih seen).cons b
    · exact (ih (b :: seen)).cons₂ b

/-- C8: when the utterance contains a close/quit/exit keyword, no explicit
close-all phrase, and the running-app names are non-degenerate (the source
would raise on an all-whitespace name), `detect_close_targets` returns
exactly the running apps one of whose aliases of length at least 3 occurs in
the lowercased utterance, without duplicates, ordered by the recorded match
index (the position of the first occurrence of the first matching alias); in
particular "close safari and close chrome" against ["Chrome", "Safari"]
returns ["Safari", "Chrome"]. -/
theorem C8_close_target_detection (raw : String) (running : List String)
    (_happs : ∀ app ∈ running, pyStrip app ≠ "")
    (hkw : occursS "close" (pyLower raw) = true ∨ occursS "quit" (pyLower raw) = true ∨
      occursS "exit" (pyLower raw) = true)
    (hnall : occursS "close all" (pyLower raw) = false ∧
      occursS "quit everything" (pyLower raw) = false ∧
      occursS "close everything" (pyLower raw) = false) :
    (∀ app, app ∈ detect_close_targets raw running ↔
        app ∈ running ∧
          ∃ a ∈ aliasesOf app, 3 ≤ pyLen a ∧ occursS a (pyLower raw) = true) ∧
    (detect_close_targets raw running).Nodup ∧
    List.Pairwise
      (fun x y => ∀ i j, matchOf (pyLower raw) x = some i →
        matchOf (pyLower raw) y = some j → i ≤ j)
      (detect_close_targets raw running) ∧
    detect_close_targets "close safari and close chrome" ["Chrome", "Safari"] =
      ["Safari", "Chrome"] := by
  have hne : raw ≠ "" := by
    intro h
    subst h
    rcases hkw with h | h | h <;> revert h <;> decide
  have hdef : detect_close_targets raw running =
      dedupKeepFirst []
        ((List.insertionSort keyLe
          (running.filterMap fun app =>
            (matchOf (pyLower raw) app).map fun idx => (idx, app))).map Prod.snd) := by
    unfold detect_close_targets
    rw [if_neg hne, if_neg (not_not_intro hkw),
        if_neg (by simp [hnall.1, hnall.2.1, hnall.2.2])]
    rfl
  have hmatches : ∀ m, m ∈ (running.filterMap fun app =>
      (matchOf (pyLower raw) app).map fun idx => (idx, app)) ↔
      m.2 ∈ running ∧ matchOf (pyLower raw) m.2 = some m.1 := by
    intro m
    rw [List.mem_filterMap]
    constructor
    · rintro ⟨b, hb, hf⟩
      rcases Option.map_eq_some'.mp hf with ⟨i, hi, hpair⟩
      cases hpair
      exact ⟨hb, hi⟩
    · rintro ⟨hb, hi⟩
      exact ⟨m.2, hb, by rw [hi]; simp⟩
  have hmemsort : ∀ m, m ∈ List.insertionSort keyLe
      (running.filterMap fun app =>
        (matchOf (pyLower raw) app).map fun idx => (idx, app)) ↔
      m.2 ∈ running ∧ matchOf (pyLower raw) m.2 = some m.1 := by
    intro m
    rw [(List.perm_insertionSort keyLe _).mem_iff]
    exact hmatches m
  refine ⟨?_, ?_, ?_, by decide⟩
  · intro app
    rw [hdef, mem_dedupKeepFirst]
    simp only [List.mem_map, List.not_mem_nil, not_false_iff, and_true]
    constructor
    · rintro ⟨m, hm, rfl⟩
      rcases (hmemsort m).mp hm with ⟨hrun, hmatch⟩
      exact ⟨hrun, (matchFrom_isSome _ _).mp ⟨m.1, hmatch⟩⟩
    · rintro ⟨hrun, hex⟩
      rcases (matchFrom_isSome _ _).mpr hex with ⟨i, hi⟩
      exact ⟨(i, app), (hmemsort (i, app)).mpr ⟨hrun, hi⟩, rfl⟩
  · rw [hdef]
    exact dedupKeepFirst_nodup _ []
  · rw [hdef]
    refine List.Pairwise.sublist (dedupKeepFirst_sublist _ []) ?_
    rw [List.pairwise_map]
    refine List.Pairwise.imp_of_mem ?_ (List.sorted_insertionSort keyLe _)
    intro x y hx hy hxy i j hi hj
    rcases (hmemsort x).mp hx with ⟨_, hix⟩
    rcases (hmemsort y).mp hy with ⟨_, hjy⟩
    have h1 : x.1 = i := Option.some.inj (hix.symm.trans hi)
    have h2 : y.1 = j := Option.some.inj (hjy.symm.trans hj)
    have hk : x.1 ≤ y.1 := hxy
    omega

/-- Witness for C8: the membership characterization instantiated at the
concrete scenario, for the app "Safari". -/
theorem C8_close_target_detection_witness :
    "Safari" ∈ detect_close_targets "close safari and close chrome" ["Chrome", "Safari"] ↔
      "Safari" ∈ ["Chrome", "Safari"] ∧
        ∃ a ∈ aliasesOf "Safari", 3 ≤ pyLen a ∧
          occursS a (pyLower "close safari and close chrome") = true :=
  (C8_close_target_detection "close safari and close chrome" ["Chrome", "Safari"]
    (by decide) (by decide) (by decide)).1 "Safari"

/-- The `OPEN_URL` step carrying the detected URL, as built by
`_apply_overrides` (`core/orchestrator.py`, lines 317 and 330). -/
def mkUrlStep (u : String) : ActionStep := ⟨Intent.OPEN_URL, [("url", u)]⟩

/-- The step filter of the URL override (`core/orchestrator.py`, lines
309-327): an `OPEN_URL` step whose (trimmed) url argument is empty is
replaced by a step carrying the detected URL, other `OPEN_URL` steps are
kept; an `OPEN_APP` step whose name contains a dot is dropped; every other
step passes through. -/
def urlFilter (u : String) : List ActionStep → List ActionStep
  | [] => []
  | st :: rest =>
    if st.intent = Intent.OPEN_URL then
      (if pyStrip (getS st.args "url") = "" then mkUrlStep u else st) :: urlFilter u rest
    else if st.intent = Intent.OPEN_APP ∧
        occursS "." (pyLower (getS st.args "app_name")) = true then
      urlFilter u rest
    else st :: urlFilter u rest

/-- The `has_open_url` flag accumulated by the source loop: whether any input
step is an `OPEN_URL` step. -/
def hasOpenUrlStep (actions : List ActionStep) : Bool :=
  actions.any fun st => st.intent == Intent.OPEN_URL

/-- The whole URL override (lines 307-332): filter, then append a step
carrying the detected URL when no `OPEN_URL` step was present at all. -/
def urlPass (u : String) (actions : List ActionStep) : List ActionStep :=
  if hasOpenUrlStep actions then urlFilter u actions
  else urlFilter u actions ++ [mkUrlStep u]

/-- The URL override applied only when a URL was detected in the utterance
(`detect_url` is a pure function of the utterance; its result is the `durl`
parameter here, identical across repeated applications in one turn). -/
def urlMaybe (durl : Option String) (actions : List ActionStep) : List ActionStep :=
  match durl with
  | none => actions
  | some u => urlPass u actions

/-- The deictic-close keyword test of lines 341-342. -/
def deicticKw (t : String) : Bool :=
  occursS "close this" t || occursS "close it" t ||
    occursS "quit this" t || occursS "quit it" t

/-- Whether the plan already has a close action (line 343). -/
def hasCloseStep (actions : List ActionStep) : Bool :=
  actions.any fun st =>
    st.intent == Intent.CLOSE_APP || st.intent == Intent.CLOSE_ALL_APPS

/-- The close-target override and deictic fallback of `_apply_overrides`
(lines 334-346): detected close targets fully replace existing `CLOSE_APP`
steps and are prepended to the remaining steps; otherwise, on a deictic
close phrase with no close action in the plan, one `CLOSE_APP` step for the
frontmost app (`front`, empty or `none` when unavailable) is prepended. -/
def closePass (raw : String) (app_list : List String) (front : Option String)
    (actions1 : List ActionStep) : List ActionStep :=
  if detect_close_targets raw app_list ≠ [] then
    ((detect_close_targets raw app_list).map fun a =>
        ActionStep.mk Intent.CLOSE_APP [("app_name", a)]) ++
      (actions1.filter fun st => ¬(st.intent = Intent.CLOSE_APP))
  else if deicticKw (pyLower raw) = true ∧ hasCloseStep actions1 = false then
    if front.getD "" = "" then actions1
    else ActionStep.mk Intent.CLOSE_APP [("app_name", front.getD "")] :: actions1
  else actions1

/-- The `_apply_overrides` action-list transformation of
`core/orchestrator.py` (lines 302-353): URL override, then close-target
override / deictic fallback. -/
def apply_overrides (durl front : Option String) (raw : String)
    (app_list : List String) (actions : List ActionStep) : List ActionStep :=
  closePass raw app_list front (urlMaybe durl actions)

/-- Stability of one step under the URL filter: the filter maps it to
itself. -/
def urlStable (u : String) (st : ActionStep) : Prop :=
  (st.intent = Intent.OPEN_URL →
    (pyStrip (getS st.args "url") ≠ "" ∨ st = mkUrlStep u)) ∧
  (st.intent = Intent.OPEN_APP →
    occursS "." (pyLower (getS st.args "app_name")) = false)

theorem mkUrlStep_stable (u : String) : urlStable u (mkUrlStep u) := by
  constructor
  · intro _
    exact Or.inr rfl
  · intro h
    simp [mkUrlStep] at h

theorem closeStep_stable (u a : String) :
    urlStable u ⟨Intent.CLOSE_APP, [("app_name", a)]⟩ := by
  constructor
  · intro h
    simp at h
  · intro h
    simp at h

theorem urlFilter_eq_of_stable (u : String) :
    ∀ l : List ActionStep, (∀ st ∈ l, urlStable u st) → urlFilter u l = l := by
  intro l
  induction l with
  | nil => intro _; rfl
  | cons st rest ih =>
    intro h
    have hst := h st (List.mem_cons_self st rest)
    have hrest := fun s hs => h s (List.mem_cons_of_mem st hs)
    rw [urlFilter]
    by_cases h1 : st.intent = Intent.OPEN_URL
    · rw [if_pos h1, ih hrest]
      rcases hst.1 h1 with hne | heq
      · rw [if_neg hne]
      · split_ifs with hc
        · rw [← heq]
        · rfl
    · rw [if_neg h1]
      by_cases h2 : st.intent = Intent.OPEN_APP ∧
          occursS "." (pyLower (getS st.args "app_name")) = true
      · exact absurd h2.2 (by rw [hst.2 h2.1]; simp)
      · rw [if_neg h2, ih hrest]

theorem urlFilter_stable (u : String) :
    ∀ l : List ActionStep, ∀ st ∈ urlFilter u l, urlStable u st := by
  intro l
  induction l with
  | nil => intro st hst; exact absurd hst (by simp [urlFilter])
  | cons a rest ih =>
    intro st hst
    rw [urlFilter] at hst
    by_cases h1 : a.intent = Intent.OPEN_URL
    · rw [if_pos h1] at hst
      rcases List.mem_cons.mp hst with heq | hmem
      · subst heq
        split_ifs with hc
        · exact mkUrlStep_stable u
        · exact ⟨fun _ => Or.inl hc, fun hoa => absurd (h1 ▸ hoa) (by simp)⟩
      · exact ih st hmem
    · rw [if_neg h1] at hst
      by_cases h2 : a.intent = Intent.OPEN_APP ∧
          occursS "." (pyLower (getS a.args "app_name")) = true
      · rw [if_pos h2] at hst
        exact ih st hst
      · rw [if_neg h2] at hst
        rcases List.mem_cons.mp hst with heq | hmem
        · subst heq
          refine ⟨fun hou => absurd hou h1, fun hoa => ?_⟩
          rcases Bool.eq_false_or_eq_true
              (occursS "." (pyLower (getS st.args "app_name"))) with ht | hf
          · exact absurd ⟨hoa, ht⟩ h2
          · exact hf
        · exact ih st hmem

theorem urlPass_stable (u : String) (l : List ActionStep) :
    ∀ st ∈ urlPass u l, urlStable u st := by
  intro st hst
  rw [urlPass] at hst
  split_ifs at hst with h
  · exact urlFilter_stable u l st hst
  · rcases List.mem_append.mp hst with hmem | hmem
    · exact urlFilter_stable u l st hmem
    · rw [List.mem_singleton.mp hmem]
      exact mkUrlStep_stable u

theorem hasOpenUrl_urlFilter (u : String) :
    ∀ l : List ActionStep, hasOpenUrlStep l = true →
      hasOpenUrlStep (urlFilter u l) = true := by
  intro l
  induction l with
  | nil => intro h; exact absurd h (by simp [hasOpenUrlStep])
  | cons a rest ih =>
    intro h
    rw [urlFilter]
    by_cases h1 : a.intent = Intent.OPEN_URL
    · rw [if_pos h1]
      split_ifs with hc
      · simp [hasOpenUrlStep, mkUrlStep]
      · simp [hasOpenUrlStep, h1]
    · have hrest : hasOpenUrlStep rest = true := by
        rcases List.any_eq_true.mp h with ⟨st, hmem, hst⟩
        rcases List.mem_cons.mp hmem with rfl | hmem'
        · exact absurd (by simpa using hst) h1
        · exact List.any_eq_true.mpr ⟨st, hmem', hst⟩
      rw [if_neg h1]
      split_ifs with h2
      · exact ih hrest
      · have := ih hrest
        simp only [hasOpenUrlStep, List.any_cons] at *
        rw [this]
        simp


theorem hasOpenUrl_urlPass (u : String) (l : List ActionStep) :
    hasOpenUrlStep (urlPass u l) = true := by
  rw [urlPass]
  split_ifs with h
  · exact hasOpenUrl_urlFilter u l h
  · simp [hasOpenUrlStep, List.any_append, mkUrlStep]

theorem urlPass_idem (u : String) (l : List ActionStep) :
    urlPass u (urlPass u l) = urlPass u l := by
  conv_lhs => rw [urlPass]
  rw [if_pos (hasOpenUrl_urlPass u l)]
  exact urlFilter_eq_of_stable u _ (urlPass_stable u l)

theorem closePass_stable (u raw : String) (apps : List String)
    (front : Option String) (l : List ActionStep)
    (h : ∀ st ∈ l, urlStable u st) :
    ∀ st ∈ closePass raw apps front l, urlStable u st := by
  intro st hst
  rw [closePass] at hst
  split_ifs at hst with h1 h2 h3
  · rcases List.mem_append.mp hst with hmem | hmem
    · rcases List.mem_map.mp hmem with ⟨a, _, rfl⟩
      exact closeStep_stable u a
    · exact h st (List.mem_of_mem_filter hmem)
  · exact h st hst
  · rcases List.mem_cons.mp hst with rfl | hmem
    · exact closeStep_stable u _
    · exact h st hmem
  · exact h st hst

theorem closePass_hasOpenUrl (raw : String) (apps : List String)
    (front : Option String) (l : List ActionStep)
    (h : hasOpenUrlStep l = true) :
    hasOpenUrlStep (closePass raw apps front l) = true := by
  rcases List.any_eq_true.mp h with ⟨st, hmem, hst⟩
  have hou : st.intent = Intent.OPEN_URL := by simpa using hst
  rw [closePass]
  split_ifs with h1 h2 h3
  · refine List.any_eq_true.mpr ⟨st, ?_, hst⟩
    exact List.mem_append.mpr (Or.inr (List.mem_filter.mpr ⟨hmem, by simp [hou]⟩))
  · exact h
  · exact List.any_eq_true.mpr ⟨st, List.mem_cons_of_mem _ hmem, hst⟩
  · exact h

theorem closePass_idem (raw : String) (apps : List String)
    (front : Option String) (l : List ActionStep) :
    closePass raw apps front (closePass raw apps front l) =
      closePass raw apps front l := by
  by_cases h1 : detect_close_targets raw apps ≠ []
  · have hO : closePass raw apps front l =
        ((detect_close_targets raw apps).map fun a =>
            ActionStep.mk Intent.CLOSE_APP [("app_name", a)]) ++
          (l.filter fun st => ¬(st.intent = Intent.CLOSE_APP)) := by
      rw [closePass, if_pos h1]
    rw [hO, closePass, if_pos h1, List.filter_append]
    have hcs : (((detect_close_targets raw apps).map fun a =>
        ActionStep.mk Intent.CLOSE_APP [("app_name", a)]).filter
          fun st => ¬(st.intent = Intent.CLOSE_APP)) = [] := by
      rw [List.filter_eq_nil_iff]
      intro a ha
      rcases List.mem_map.mp ha with ⟨x, _, rfl⟩
      simp
    have hff : ((l.filter fun st => ¬(st.intent = Intent.CLOSE_APP)).filter
        fun st => ¬(st.intent = Intent.CLOSE_APP)) =
          l.filter fun st => ¬(st.intent = Intent.CLOSE_APP) :=
      List.filter_eq_self.mpr fun a ha => (List.mem_filter.mp ha).2
    rw [hcs, hff, List.nil_append]
  · by_cases h2 : deicticKw (pyLower raw) = true ∧ hasCloseStep l = false
    · by_cases h3 : front.getD "" = ""
      · have hO : closePass raw apps front l = l := by
          rw [closePass, if_neg h1, if_pos h2, if_pos h3]
        rw [hO]
        exact hO
      · have hO : closePass raw apps front l =
            ActionStep.mk Intent.CLOSE_APP [("app_name", front.getD "")] :: l := by
          rw [closePass, if_neg h1, if_pos h2, if_neg h3]
        have hcl : hasCloseStep
            (ActionStep.mk Intent.CLOSE_APP [("app_name", front.getD "")] :: l) = true := by
          simp [hasCloseStep]
        rw [hO, closePass, if_neg h1,
            if_neg (fun hand => absurd hand.2 (by simp [hcl]))]
    · have hO : closePass raw apps front l = l := by
        rw [closePass, if_neg h1, if_neg h2]
      rw [hO]
      exact hO

theorem urlFilter_no_openurl (u : String) :
    ∀ l : List ActionStep, (∀ st ∈ l, st.intent ≠ Intent.OPEN_URL) →
      ∀ st ∈ urlFilter u l, st.intent ≠ Intent.OPEN_URL := by
  intro l
  induction l with
  | nil => intro _ st hst; exact absurd hst (by simp [urlFilter])
  | cons a rest ih =>
    intro h st hst
    have ha := h a (List.mem_cons_self a rest)
    have hrest := fun s hs => h s (List.mem_cons_of_mem a hs)
    rw [urlFilter, if_neg ha] at hst
    split_ifs at hst with h2
    · exact ih hrest st hst
    · rcases List.mem_cons.mp hst with rfl | hmem
      · exact ha
      · exact ih hrest st hmem

theorem countP_openurl_filter (l : List ActionStep) :
    ((l.filter fun st => ¬(st.intent = Intent.CLOSE_APP)).countP
        fun st => st.intent == Intent.OPEN_URL) =
      l.countP fun st => st.intent == Intent.OPEN_URL := by
  induction l with
  | nil => rfl
  | cons a rest ih =>
    rw [List.filter_cons]
    by_cases ha : a.intent = Intent.CLOSE_APP
    · rw [if_neg (by simp [ha]), List.countP_cons, ih]
      have : (a.intent == Intent.OPEN_URL) = false := by simp [ha]
      simp [this]
    · rw [if_pos (by simp [ha]), List.countP_cons, List.countP_cons, ih]

theorem closePass_countP (raw : String) (apps : List String)
    (front : Option String) (l : List ActionStep) :
    ((closePass raw apps front l).countP fun st => st.intent == Intent.OPEN_URL) =
      l.countP fun st => st.intent == Intent.OPEN_URL := by
  rw [closePass]
  split_ifs with h1 h2 h3
  · rw [List.countP_append]
    have hc1 : (((detect_close_targets raw apps).map fun a =>
        ActionStep.mk Intent.CLOSE_APP [("app_name", a)]).countP
          fun st => st.intent == Intent.OPEN_URL) = 0 := by
      rw [List.countP_eq_zero]
      intro a ha
      rcases List.mem_map.mp ha with ⟨x, _, rfl⟩
      simp
    rw [hc1, countP_openurl_filter, Nat.zero_add]
  · rfl
  · rw [List.countP_cons]
    simp
  · rfl

theorem closePass_mem_openurl (raw : String) (apps : List String)
    (front : Option String) (l : List ActionStep) (st : ActionStep)
    (hst : st ∈ l) (hou : st.intent = Intent.OPEN_URL) :
    st ∈ closePass raw apps front l := by
  rw [closePass]
  split_ifs with h1 h2 h3
  · exact List.mem_append.mpr (Or.inr (List.mem_filter.mpr ⟨hst, by simp [hou]⟩))
  · exact hst
  · exact List.mem_cons_of_mem _ hst
  · exact hst

/-- C9 (amended): the override resolver is idempotent — applying it a second
time to the output of the first application yields the same action list, for
every utterance, running-app list, frontmost app, detected URL, and plan —
and when a URL is detected and the incoming plan contains no `OPEN_URL` step
at all, the output contains exactly one `OPEN_URL` step, which carries the
detected URL. (When the plan already contains `OPEN_URL` steps, the source
reuses or keeps them all, so uniqueness can fail; see the counterexample.) -/
theorem C9_overrides_idempotent (durl front : Option String) (raw : String)
    (apps : List String) (actions : List ActionStep) :
    apply_overrides durl front raw apps (apply_overrides durl front raw apps actions) =
      apply_overrides durl front raw apps actions ∧
    (∀ u, durl = some u → (∀ st ∈ actions, st.intent ≠ Intent.OPEN_URL) →
      ((apply_overrides durl front raw apps actions).countP
          (fun st => st.intent == Intent.OPEN_URL) = 1 ∧
        mkUrlStep u ∈ apply_overrides durl front raw apps actions)) := by
  constructor
  · rw [apply_overrides, apply_overrides]
    have hum : urlMaybe durl (closePass raw apps front (urlMaybe durl actions)) =
        closePass raw apps front (urlMaybe durl actions) := by
      rcases durl with _ | u
      · rfl
      · have hstab : ∀ st ∈ closePass raw apps front (urlMaybe (some u) actions),
            urlStable u st :=
          closePass_stable u raw apps front _ (urlPass_stable u actions)
        have hhas : hasOpenUrlStep
            (closePass raw apps front (urlMaybe (some u) actions)) = true :=
          closePass_hasOpenUrl raw apps front _ (hasOpenUrl_urlPass u actions)
        show urlPass u _ = _
        rw [urlPass, if_pos hhas]
        exact urlFilter_eq_of_stable u _ hstab
    rw [hum]
    exact closePass_idem raw apps front (urlMaybe durl actions)
  · rintro u rfl hno
    have hfalse : hasOpenUrlStep actions = false := by
      rw [hasOpenUrlStep, List.any_eq_false]
      intro st hst
      simpa using hno st hst
    have hA1 : urlMaybe (some u) actions = urlFilter u actions ++ [mkUrlStep u] := by
      show urlPass u actions = _
      rw [urlPass, if_neg (by simp [hfalse])]
    have hnf : ∀ st ∈ urlFilter u actions, st.intent ≠ Intent.OPEN_URL :=
      urlFilter_no_openurl u actions hno
    have hcA1 : ((urlMaybe (some u) actions).countP
        fun st => st.intent == Intent.OPEN_URL) = 1 := by
      rw [hA1, List.countP_append]
      have h0 : ((urlFilter u actions).countP
          fun st => st.intent == Intent.OPEN_URL) = 0 := by
        rw [List.countP_eq_zero]
        intro st hst
        simpa using hnf st hst
      rw [h0]
      simp [mkUrlStep]
    have hmA1 : mkUrlStep u ∈ urlMaybe (some u) actions := by
      rw [hA1]
      exact List.mem_append_right _ (List.mem_singleton.mpr rfl)
    refine ⟨?_, ?_⟩
    · rw [apply_overrides, closePass_countP]
      exact hcA1
    · rw [apply_overrides]
      exact closePass_mem_openurl raw apps front _ _ hmA1 (by simp [mkUrlStep])

/-- Witness for C9 at the spec scenario "open google.com" with an empty prior
plan: applying the override twice equals applying it once, and the plan ends
with exactly one `OPEN_URL` step carrying "https://google.com". -/
theorem C9_overrides_idempotent_witness :
    (apply_overrides (some "https://google.com") none "open google.com" []
        (apply_overrides (some "https://google.com") none "open google.com" [] []) =
      apply_overrides (some "https://google.com") none "open google.com" [] []) ∧
    ((apply_overrides (some "https://google.com") none "open google.com" [] []).countP
        (fun st => st.intent == Intent.OPEN_URL) = 1 ∧
      mkUrlStep "https://google.com" ∈
        apply_overrides (some "https://google.com") none "open google.com" [] []) :=
  ⟨(C9_overrides_idempotent (some "https://google.com") none "open google.com" [] []).1,
   (C9_overrides_idempotent (some "https://google.com") none "open google.com" [] []).2
     "https://google.com" rfl (by simp)⟩

/-- Counterexample to C9 as stated: with a detected URL and a plan holding
two empty `OPEN_URL` steps, the override injects the detected URL into both,
so the (still idempotent) output carries two `OPEN_URL` steps with the
detected URL rather than a single one. -/
theorem C9_counterexample :
    apply_overrides (some "https://google.com") none "open google.com" []
        [⟨Intent.OPEN_URL, []⟩, ⟨Intent.OPEN_URL, []⟩] =
      [mkUrlStep "https://google.com", mkUrlStep "https://google.com"] ∧
    (apply_overrides (some "https://google.com") none "open google.com" []
        [⟨Intent.OPEN_URL, []⟩, ⟨Intent.OPEN_URL, []⟩]).countP
      (fun st => st.intent == Intent.OPEN_URL) = 2 := by
  constructor
  · decide
  · decide

end Nexus
